import Mathlib

/-!
Verification of the ECDH Agreement Coordinator (`src/ecdsa/ecdh.py`).

The repository slice under review contains only `ecdh.py`.  Its external
collaborators (`ellipticcurve.py`, `keys.py`, `util.py`, `curves.py`) are
not part of the slice; following the specification they are modelled at
their boundary: a curve identifier with decidable equality, a point type
supporting scalar multiplication, an infinity test and an x-coordinate
accessor, key objects carrying their curve, and a fixed-width big-endian
integer serializer.  The cyclic subgroup generated by a curve's base point
is represented by residues modulo the curve's order, which validates the
algebraic facts the specification asserts about the external point module
(commutativity of scalar multiplication) while keeping every definition
executable.

Methods of the Python `ECDH` class become state-passing functions
`ECDH → args → Except Err α × ECDH`: the returned state is the state of
the object after the call, including the case where the call raises (the
exception propagates with whatever mutations already happened, which is
exactly what the pair captures).
-/

namespace ECDHSpec

/-- Errors raised by the coordinator.  The first four are the ECDH error
taxonomy from `ecdh.py`.  `ExternalError` models a failure that escapes
from an external collaborator and is *not* one of the four ECDH errors
(for example the attribute error that `VerifyingKey.from_string` raises
when handed a `None` curve, or `get_public_key` dereferencing a missing
private key). -/
inductive Err where
  | NoKeyError
  | NoCurveError
  | InvalidCurveError
  | InvalidSharedSecretError
  | ExternalError
  deriving DecidableEq, Repr

/-- Modelled from the spec: a curve identifier is an opaque value naming a
specific elliptic curve (field, generator, order, cofactor), comparable
for equality.  `p` stands for the field parameter and `order` for the
order of the base point. -/
structure Curve where
  p : Nat
  order : Nat
  deriving DecidableEq, Repr

/-- Modelled from the spec: a point of the cyclic subgroup generated by a
curve's base point G, represented by its discrete logarithm `k` reduced
modulo the subgroup order (`P = k·G`).  The point at infinity is the
residue 0.  This realizes exactly the boundary the spec gives for the
external point module: scalar multiplication, equality, a distinguished
point-at-infinity value and an x-coordinate accessor. -/
structure Point where
  order : Nat
  k : Nat
  deriving DecidableEq, Repr

/-- Modelled from the spec: scalar multiplication `point * integer` of the
external curve module (`k·G * m = (k*m)·G`). -/
def Point.smul (P : Point) (m : Nat) : Point :=
  ⟨P.order, P.k * m % P.order⟩

/-- Modelled from the spec: equality against the distinguished
point-at-infinity value (`result == INFINITY` in the source). -/
def Point.isInfinity (P : Point) : Bool :=
  P.k % P.order == 0

/-- Modelled from the spec: the x-coordinate accessor `point.x()`,
returning a non-negative integer determined by the point. -/
def Point.x (P : Point) : Nat :=
  P.k % P.order

/-- Modelled from the spec: the base point G of a curve (`1·G`). -/
def Curve.generator (c : Curve) : Point :=
  ⟨c.order, 1 % c.order⟩

/-- Modelled from the spec: `PrivateKey` of the external key module —
fields: secret scalar and curve.  Field names follow the attribute path
used by `ecdh.py` (`private_key.privkey.secret_multiplier`,
`private_key.curve`). -/
structure SigningKey where
  curve : Curve
  secret_multiplier : Nat
  deriving DecidableEq, Repr

/-- Modelled from the spec: `PublicKey` of the external key module —
fields: curve point and curve.  `point` corresponds to the attribute path
`public_key.pubkey.point` used by `ecdh.py`. -/
structure VerifyingKey where
  curve : Curve
  point : Point
  deriving DecidableEq, Repr

/-- Modelled from the spec: deriving the public key of a private key
(`SigningKey.get_verifying_key`): the public point is `scalar · G`. -/
def SigningKey.get_verifying_key (sk : SigningKey) : VerifyingKey :=
  ⟨sk.curve, sk.curve.generator.smul sk.secret_multiplier⟩

/-- Modelled from the spec: `SigningKey.generate(curve)` draws a fresh
random scalar on the curve; the drawn scalar is passed explicitly since
randomness is external. -/
def SigningKey.generate (curve : Curve) (fresh : Nat) : SigningKey :=
  ⟨curve, fresh⟩

/-- Big-endian value of a byte string (`string_to_number` boundary). -/
def beValue (bs : List Nat) : Nat :=
  bs.foldl (fun acc b => acc * 256 + b) 0

/-- Modelled from the spec: the minimum number of bytes needed to
represent `n`, i.e. `ceil(bit_length(n)/8)` (`orderlen` boundary). -/
def orderlen (n : Nat) : Nat :=
  (Nat.size n + 7) / 8

/-- Modelled from the spec: `number_to_string(num, order)` serializes
`num` as a big-endian byte string left-zero-padded to the byte length
needed to represent `order`. -/
def number_to_string (num order : Nat) : List Nat :=
  (List.range (orderlen order)).map
    (fun i => num / 256 ^ (orderlen order - 1 - i) % 256)

/-- Modelled from the spec: `SigningKey.from_string` decodes a private
key from its fixed-width byte encoding, given a curve. -/
def SigningKey.from_string (data : List Nat) (curve : Curve) : SigningKey :=
  ⟨curve, beValue data⟩

/-- Modelled from the spec: `VerifyingKey.from_string` decodes a public
key from its fixed-width byte encoding given a curve; the raw byte
encoding carries no curve information, so when no curve is supplied the
decoder fails with a low-level error outside the ECDH taxonomy (it
dereferences the missing curve). -/
def VerifyingKey.from_string (data : List Nat) (curve : Option Curve) :
    Except Err VerifyingKey :=
  match curve with
  | none => .error .ExternalError
  | some c => .ok ⟨c, ⟨c.order, beValue data % c.order⟩⟩

/-- State of the `ECDH` Agreement Coordinator: at most one curve
identifier, one local private key, one remote public key. -/
structure ECDH where
  curve : Option Curve
  private_key : Option SigningKey
  public_key : Option VerifyingKey
  deriving DecidableEq, Repr

namespace ECDH

/-- `ECDH._get_shared_secret(remote_public_key)` translated from the
source.  The remote argument is an `Option` because the only caller
passes `self.public_key`; after the emptiness guards have passed the
method dereferences it. -/
def get_shared_secret (s : ECDH) (remote_public_key : Option VerifyingKey) :
    Except Err Nat × ECDH :=
  if s.private_key.isNone then
    (.error .NoKeyError, s)
  else if s.public_key.isNone then
    (.error .NoKeyError, s)
  else
    match remote_public_key with
    | none => (.error .ExternalError, s)
    | some remote =>
      if ¬ ((s.private_key.map SigningKey.curve) = s.curve ∧
            s.curve = some remote.curve) then
        (.error .InvalidCurveError, s)
      else
        match s.private_key with
        | none => (.error .ExternalError, s)
        | some priv =>
          let result := remote.point.smul priv.secret_multiplier
          if result.isInfinity then
            (.error .InvalidSharedSecretError, s)
          else
            (.ok result.x, s)

/-- `ECDH.set_curve(key_curve)`: unconditionally overwrites the stored
curve identifier. -/
def set_curve (s : ECDH) (key_curve : Curve) : ECDH :=
  { s with curve := some key_curve }

/-- `ECDH.load_private_key(private_key)` translated from the source:
adopt the curve if unset, reject on mismatch, store the key and return
its derived public key. -/
def load_private_key (s : ECDH) (private_key : SigningKey) :
    Except Err VerifyingKey × ECDH :=
  let s1 := if s.curve.isNone then { s with curve := some private_key.curve }
            else s
  if s1.curve ≠ some private_key.curve then
    (.error .InvalidCurveError, s1)
  else
    (.ok private_key.get_verifying_key,
     { s1 with private_key := some private_key })

/-- `ECDH.generate_private_key()` translated from the source; the fresh
random scalar drawn by the external key module is passed explicitly. -/
def generate_private_key (s : ECDH) (fresh : Nat) :
    Except Err VerifyingKey × ECDH :=
  match s.curve with
  | none => (.error .NoCurveError, s)
  | some c => s.load_private_key (SigningKey.generate c fresh)

/-- `ECDH.load_private_key_bytes(private_key)` translated from the
source: requires the curve to be set, then decodes with it and delegates
to `load_private_key`. -/
def load_private_key_bytes (s : ECDH) (data : List Nat) :
    Except Err VerifyingKey × ECDH :=
  match s.curve with
  | none => (.error .NoCurveError, s)
  | some c => s.load_private_key (SigningKey.from_string data c)

/-- `ECDH.load_private_key_der` / `ECDH.load_private_key_pem` translated
from the source: both decode externally (the curve is embedded in the
encoding) and delegate to `load_private_key`; the externally decoded key
is passed explicitly. -/
def load_private_key_decoded (s : ECDH) (decoded : SigningKey) :
    Except Err VerifyingKey × ECDH :=
  s.load_private_key decoded

/-- `ECDH.get_public_key()` translated from the source: derives the
public key of the stored private key with no guard — on an empty private
key slot the attribute dereference fails outside the ECDH taxonomy. -/
def get_public_key (s : ECDH) : Except Err VerifyingKey × ECDH :=
  match s.private_key with
  | none => (.error .ExternalError, s)
  | some sk => (.ok sk.get_verifying_key, s)

/-- `ECDH.load_received_public_key(public_key)` translated from the
source: adopt the curve if unset, reject on mismatch, store the key. -/
def load_received_public_key (s : ECDH) (public_key : VerifyingKey) :
    Except Err Unit × ECDH :=
  let s1 := if s.curve.isNone then { s with curve := some public_key.curve }
            else s
  if s1.curve ≠ some public_key.curve then
    (.error .InvalidCurveError, s1)
  else
    (.ok (), { s1 with public_key := some public_key })

/-- `ECDH.load_received_public_key_bytes(public_key_str)` translated from
the source: decodes with the *current* curve slot (no `NoCurveError`
guard in the source, unlike `load_private_key_bytes`) and delegates to
`load_received_public_key`. -/
def load_received_public_key_bytes (s : ECDH) (data : List Nat) :
    Except Err Unit × ECDH :=
  match VerifyingKey.from_string data s.curve with
  | .error e => (.error e, s)
  | .ok vk => s.load_received_public_key vk

/-- `ECDH.load_received_public_key_der` / `..._pem` translated from the
source: decode externally and delegate; the decoded key is passed
explicitly. -/
def load_received_public_key_decoded (s : ECDH) (decoded : VerifyingKey) :
    Except Err Unit × ECDH :=
  s.load_received_public_key decoded

/-- `ECDH.generate_sharedsecret()` translated from the source: delegates
to `_get_shared_secret(self.public_key)`. -/
def generate_sharedsecret (s : ECDH) : Except Err Nat × ECDH :=
  s.get_shared_secret s.public_key

/-- `ECDH.generate_sharedsecret_bytes()` translated from the source:
Python evaluates `self.generate_sharedsecret()` before dereferencing
`self.private_key.curve.order`, so a missing key raises `NoKeyError`
first. -/
def generate_sharedsecret_bytes (s : ECDH) : Except Err (List Nat) × ECDH :=
  match s.generate_sharedsecret with
  | (.error e, s1) => (.error e, s1)
  | (.ok n, s1) =>
    match s1.private_key with
    | none => (.error .ExternalError, s1)
    | some sk => (.ok (number_to_string n sk.curve.order), s1)

/-- Curve consistency of a coordinator state: whenever a key slot is set,
the curve slot is set to that key's curve (hence any two set members of
the triple agree). -/
def Consistent (s : ECDH) : Prop :=
  (∀ k, s.private_key = some k → s.curve = some k.curve) ∧
  (∀ v, s.public_key = some v → s.curve = some v.curve)

/-- States reachable from a fresh coordinator by arbitrary sequences of
the public operations, including unrestricted `set_curve`.  Constructing
a coordinator with pre-seeded arguments is subsumed: `__init__` stores
the curve argument and routes the key arguments through
`load_private_key` and `load_received_public_key`. -/
inductive Reachable : ECDH → Prop where
  | init : Reachable ⟨none, none, none⟩
  | set_curve (s : ECDH) (c : Curve) :
      Reachable s → Reachable (s.set_curve c)
  | generate_private_key (s : ECDH) (fresh : Nat) :
      Reachable s → Reachable (s.generate_private_key fresh).2
  | load_private_key (s : ECDH) (k : SigningKey) :
      Reachable s → Reachable (s.load_private_key k).2
  | load_private_key_bytes (s : ECDH) (d : List Nat) :
      Reachable s → Reachable (s.load_private_key_bytes d).2
  | load_private_key_decoded (s : ECDH) (k : SigningKey) :
      Reachable s → Reachable (s.load_private_key_decoded k).2
  | get_public_key (s : ECDH) :
      Reachable s → Reachable s.get_public_key.2
  | load_received_public_key (s : ECDH) (v : VerifyingKey) :
      Reachable s → Reachable (s.load_received_public_key v).2
  | load_received_public_key_bytes (s : ECDH) (d : List Nat) :
      Reachable s → Reachable (s.load_received_public_key_bytes d).2
  | load_received_public_key_decoded (s : ECDH) (v : VerifyingKey) :
      Reachable s → Reachable (s.load_received_public_key_decoded v).2
  | generate_sharedsecret (s : ECDH) :
      Reachable s → Reachable s.generate_sharedsecret.2
  | generate_sharedsecret_bytes (s : ECDH) :
      Reachable s → Reachable s.generate_sharedsecret_bytes.2

/-- States reachable by the public operations when `set_curve` is only
used before any key has been loaded (the discipline the source docstring
prescribes: the curve is set on a freshly constructed coordinator). -/
inductive ReachableSafe : ECDH → Prop where
  | init : ReachableSafe ⟨none, none, none⟩
  | set_curve (s : ECDH) (c : Curve) :
      s.private_key = none → s.public_key = none →
      ReachableSafe s → ReachableSafe (s.set_curve c)
  | generate_private_key (s : ECDH) (fresh : Nat) :
      ReachableSafe s → ReachableSafe (s.generate_private_key fresh).2
  | load_private_key (s : ECDH) (k : SigningKey) :
      ReachableSafe s → ReachableSafe (s.load_private_key k).2
  | load_private_key_bytes (s : ECDH) (d : List Nat) :
      ReachableSafe s → ReachableSafe (s.load_private_key_bytes d).2
  | load_private_key_decoded (s : ECDH) (k : SigningKey) :
      ReachableSafe s → ReachableSafe (s.load_private_key_decoded k).2
  | get_public_key (s : ECDH) :
      ReachableSafe s → ReachableSafe s.get_public_key.2
  | load_received_public_key (s : ECDH) (v : VerifyingKey) :
      ReachableSafe s → ReachableSafe (s.load_received_public_key v).2
  | load_received_public_key_bytes (s : ECDH) (d : List Nat) :
      ReachableSafe s → ReachableSafe (s.load_received_public_key_bytes d).2
  | load_received_public_key_decoded (s : ECDH) (v : VerifyingKey) :
      ReachableSafe s → ReachableSafe (s.load_received_public_key_decoded v).2
  | generate_sharedsecret (s : ECDH) :
      ReachableSafe s → ReachableSafe s.generate_sharedsecret.2
  | generate_sharedsecret_bytes (s : ECDH) :
      ReachableSafe s → ReachableSafe s.generate_sharedsecret_bytes.2

end ECDH

/-! Helper lemmas about the embedded operations. -/

lemma get_shared_secret_snd (s : ECDH) (r : Option VerifyingKey) :
    (s.get_shared_secret r).2 = s := by
  unfold ECDH.get_shared_secret
  repeat' split
  all_goals dsimp only
  all_goals split <;> rfl

lemma generate_sharedsecret_snd (s : ECDH) :
    s.generate_sharedsecret.2 = s :=
  get_shared_secret_snd s s.public_key

lemma generate_sharedsecret_eta (s : ECDH) :
    s.generate_sharedsecret = (s.generate_sharedsecret.1, s) := by
  calc s.generate_sharedsecret
      = (s.generate_sharedsecret.1, s.generate_sharedsecret.2) := rfl
    _ = (s.generate_sharedsecret.1, s) := by rw [generate_sharedsecret_snd]

lemma generate_sharedsecret_bytes_snd (s : ECDH) :
    s.generate_sharedsecret_bytes.2 = s := by
  unfold ECDH.generate_sharedsecret_bytes
  rw [generate_sharedsecret_eta s]
  cases s.generate_sharedsecret.1 with
  | error e => rfl
  | ok n =>
    cases h : s.private_key <;> simp [h]

lemma get_public_key_snd (s : ECDH) :
    s.get_public_key.2 = s := by
  unfold ECDH.get_public_key
  cases s.private_key <;> rfl

lemma generate_sharedsecret_ok (s : ECDH) (n : Nat)
    (h : s.generate_sharedsecret.1 = .ok n) :
    ∃ k v, s.private_key = some k ∧ s.public_key = some v ∧
      s.curve = some k.curve ∧ s.curve = some v.curve ∧
      (v.point.smul k.secret_multiplier).isInfinity = false ∧
      n = (v.point.smul k.secret_multiplier).x := by
  unfold ECDH.generate_sharedsecret ECDH.get_shared_secret at h
  rcases hk : s.private_key with _ | k
  · rw [hk] at h; simp at h
  rcases hv : s.public_key with _ | v
  · rw [hk, hv] at h; simp at h
  rw [hk, hv] at h
  simp only [Option.isNone_some, Bool.false_eq_true, if_false,
    Option.map_some'] at h
  by_cases hc : some k.curve = s.curve ∧ s.curve = some v.curve
  · rw [if_neg (not_not_intro hc)] at h
    by_cases hinf : (v.point.smul k.secret_multiplier).isInfinity
    · rw [if_pos hinf] at h
      simp at h
    · rw [if_neg hinf] at h
      exact ⟨k, v, rfl, rfl, hc.1.symm, hc.2,
        Bool.not_eq_true _ ▸ eq_false_of_ne_true (fun ht => hinf ht),
        by simpa using h.symm⟩
  · rw [if_pos hc] at h
    simp at h

/-- C1: when both key slots are set and the coordinator's curve, the
private key's curve and the public key's curve agree, the shared-secret
computation multiplies the public point by the private scalar; it fails
with `InvalidSharedSecretError` exactly when the product is the point at
infinity, and otherwise returns the x-coordinate of the product. -/
theorem C1_shared_secret_computation (s : ECDH) (k : SigningKey)
    (v : VerifyingKey) (hk : s.private_key = some k)
    (hv : s.public_key = some v) (hc : s.curve = some k.curve)
    (hkv : k.curve = v.curve) :
    s.generate_sharedsecret =
      (if (v.point.smul k.secret_multiplier).isInfinity then
        (.error Err.InvalidSharedSecretError, s)
      else (.ok (v.point.smul k.secret_multiplier).x, s)) := by
  unfold ECDH.generate_sharedsecret ECDH.get_shared_secret
  rw [hk, hv]
  simp only [Option.isNone_some, Bool.false_eq_true, if_false,
    Option.map_some']
  rw [if_neg (not_not_intro ⟨hc.symm, hc.trans (by rw [hkv])⟩)]

/-- Witness for C1 at a concrete state: curve of order 5, private scalar
2, remote public point 3·G; the product is 6·G = 1·G, not at infinity,
with x-coordinate 1. -/
theorem C1_shared_secret_computation_witness :
    ECDH.generate_sharedsecret
        ⟨some ⟨0, 5⟩, some ⟨⟨0, 5⟩, 2⟩, some ⟨⟨0, 5⟩, ⟨5, 3⟩⟩⟩ =
      (.ok 1, ⟨some ⟨0, 5⟩, some ⟨⟨0, 5⟩, 2⟩, some ⟨⟨0, 5⟩, ⟨5, 3⟩⟩⟩) := by
  have h := C1_shared_secret_computation
    ⟨some ⟨0, 5⟩, some ⟨⟨0, 5⟩, 2⟩, some ⟨⟨0, 5⟩, ⟨5, 3⟩⟩⟩
    ⟨⟨0, 5⟩, 2⟩ ⟨⟨0, 5⟩, ⟨5, 3⟩⟩ rfl rfl rfl rfl
  rw [h]
  rfl

/-- C2: the shared-secret computation rejects an empty private key slot
with `NoKeyError`, then an empty public key slot with `NoKeyError`, and
with both slots set rejects with `InvalidCurveError` unless the curve
slot, the private key's curve and the public key's curve are pairwise
equal — all before any point arithmetic. -/
theorem C2_missing_state_and_curve_checks (s : ECDH) :
    (s.private_key = none →
      s.generate_sharedsecret = (.error Err.NoKeyError, s)) ∧
    (s.private_key ≠ none → s.public_key = none →
      s.generate_sharedsecret = (.error Err.NoKeyError, s)) ∧
    (∀ k v, s.private_key = some k → s.public_key = some v →
      ¬ (s.curve = some k.curve ∧ s.curve = some v.curve ∧
         k.curve = v.curve) →
      s.generate_sharedsecret = (.error Err.InvalidCurveError, s)) := by
  refine ⟨fun h => ?_, fun h1 h2 => ?_, fun k v hk hv hcc => ?_⟩
  · unfold ECDH.generate_sharedsecret ECDH.get_shared_secret
    rw [h]
    rfl
  · rcases hk : s.private_key with _ | k
    · exact absurd hk h1
    unfold ECDH.generate_sharedsecret ECDH.get_shared_secret
    rw [hk, h2]
    rfl
  · unfold ECDH.generate_sharedsecret ECDH.get_shared_secret
    rw [hk, hv]
    simp only [Option.isNone_some, Bool.false_eq_true, if_false,
      Option.map_some']
    rw [if_pos]
    intro hand
    exact hcc ⟨hand.1.symm, hand.2,
      Option.some_injective _ (hand.1.symm.symm.trans hand.2)⟩

/-- Witness for C2 exercising all three branches at concrete states:
everything empty, only a private key, and both keys with the curve slot
empty (hence not pairwise equal). -/
theorem C2_missing_state_and_curve_checks_witness :
    ECDH.generate_sharedsecret ⟨none, none, none⟩ =
      (.error Err.NoKeyError, ⟨none, none, none⟩) ∧
    ECDH.generate_sharedsecret ⟨none, some ⟨⟨0, 5⟩, 2⟩, none⟩ =
      (.error Err.NoKeyError, ⟨none, some ⟨⟨0, 5⟩, 2⟩, none⟩) ∧
    ECDH.generate_sharedsecret
        ⟨none, some ⟨⟨0, 5⟩, 2⟩, some ⟨⟨0, 5⟩, ⟨5, 3⟩⟩⟩ =
      (.error Err.InvalidCurveError,
       ⟨none, some ⟨⟨0, 5⟩, 2⟩, some ⟨⟨0, 5⟩, ⟨5, 3⟩⟩⟩) :=
  ⟨(C2_missing_state_and_curve_checks ⟨none, none, none⟩).1 rfl,
   (C2_missing_state_and_curve_checks
      ⟨none, some ⟨⟨0, 5⟩, 2⟩, none⟩).2.1 (by simp) rfl,
   (C2_missing_state_and_curve_checks
      ⟨none, some ⟨⟨0, 5⟩, 2⟩, some ⟨⟨0, 5⟩, ⟨5, 3⟩⟩⟩).2.2
     ⟨⟨0, 5⟩, 2⟩ ⟨⟨0, 5⟩, ⟨5, 3⟩⟩ rfl rfl (by decide)⟩

lemma number_to_string_length (num order : Nat) :
    (number_to_string num order).length = (Nat.size order + 7) / 8 := by
  simp [number_to_string, orderlen]

lemma size_eq_of_bounds (n l : Nat) (h1 : 2 ^ l ≤ n) (h2 : n < 2 ^ (l + 1)) :
    Nat.size n = l + 1 :=
  le_antisymm (Nat.size_le.2 h2) (Nat.lt_size.2 h1)

/-- C3: whenever the shared-secret computation succeeds with integer `n`,
the byte-producing variant returns the big-endian left-zero-padded
serialization of `n`, whose length is determined by the curve's order as
ceil(bit_length(order)/8), not by the magnitude of `n`. -/
theorem C3_fixed_width_serialization (s : ECDH) (n : Nat) (c : Curve)
    (hn : s.generate_sharedsecret.1 = .ok n) (hc : s.curve = some c) :
    s.generate_sharedsecret_bytes.1 = .ok (number_to_string n c.order) ∧
    (number_to_string n c.order).length = (Nat.size c.order + 7) / 8 := by
  obtain ⟨k, v, hk, hv, hck, hcv, hinf, hxn⟩ := generate_sharedsecret_ok s n hn
  have hkc : k.curve = c := by
    rw [hc] at hck
    exact (Option.some.inj hck).symm
  refine ⟨?_, number_to_string_length n c.order⟩
  unfold ECDH.generate_sharedsecret_bytes
  rw [generate_sharedsecret_eta s, hn]
  simp [hk, hkc]

/-- Witness for C3 at a concrete state: curve order 300 needs two bytes,
and secret 6 is serialized with a leading zero byte. -/
theorem C3_fixed_width_serialization_witness :
    (ECDH.generate_sharedsecret_bytes
        ⟨some ⟨0, 300⟩, some ⟨⟨0, 300⟩, 2⟩,
         some ⟨⟨0, 300⟩, ⟨300, 3⟩⟩⟩).1 = .ok [0, 6] ∧
    (number_to_string 6 300).length = 2 := by
  have h := C3_fixed_width_serialization
    ⟨some ⟨0, 300⟩, some ⟨⟨0, 300⟩, 2⟩, some ⟨⟨0, 300⟩, ⟨300, 3⟩⟩⟩
    6 ⟨0, 300⟩ rfl rfl
  have hs : Nat.size 300 = 9 := size_eq_of_bounds 300 8 (by norm_num) (by norm_num)
  have hlist : number_to_string 6 300 = [0, 6] := by
    unfold number_to_string orderlen
    rw [hs]
    decide
  constructor
  · rw [h.1]
    show (Except.ok (number_to_string 6 300) : Except Err (List Nat)) = .ok [0, 6]
    rw [hlist]
  · rw [hlist]
    rfl

/-- C4 (code bug in the source): with an empty curve slot,
`load_received_public_key_bytes` does not raise `NoCurveError` — unlike
`load_private_key_bytes` it has no curve guard and hands the empty curve
slot straight to the external decoder, which fails outside the ECDH
error taxonomy. -/
theorem C4_load_public_bytes_no_curve_guard :
    (ECDH.load_received_public_key_bytes ⟨none, none, none⟩ [1]).1 =
      .error Err.ExternalError ∧
    (ECDH.load_received_public_key_bytes ⟨none, none, none⟩ [1]).1 ≠
      .error Err.NoCurveError ∧
    (ECDH.load_private_key_bytes ⟨none, none, none⟩ [1]).1 =
      .error Err.NoCurveError := by
  refine ⟨rfl, ?_, rfl⟩
  intro h
  have h2 : Err.ExternalError = Err.NoCurveError := by
    have h1 : (Except.error Err.ExternalError : Except Err Unit) =
        .error Err.NoCurveError := h
    injection h1
  exact Err.noConfusion h2

/-- C5: loading a private key adopts its curve when the curve slot is
empty, accepts and stores the key when the curves agree (returning the
derived public key), and fails with `InvalidCurveError` leaving the state
alone when they differ. -/
theorem C5_load_private_key_cases (s : ECDH) (k : SigningKey) :
    (s.curve = none →
      s.load_private_key k =
        (.ok k.get_verifying_key,
         { s with curve := some k.curve, private_key := some k })) ∧
    (s.curve = some k.curve →
      s.load_private_key k =
        (.ok k.get_verifying_key, { s with private_key := some k })) ∧
    (∀ c, s.curve = some c → c ≠ k.curve →
      s.load_private_key k = (.error Err.InvalidCurveError, s)) := by
  refine ⟨fun h => ?_, fun h => ?_, fun c h hne => ?_⟩
  · simp [ECDH.load_private_key, h]
  · simp [ECDH.load_private_key, h]
  · simp [ECDH.load_private_key, h, hne]

/-- Witness for C5 exercising all three branches at concrete inputs:
empty curve slot (adoption), matching curve slot, mismatching curve
slot. -/
theorem C5_load_private_key_cases_witness :
    ECDH.load_private_key ⟨none, none, none⟩ ⟨⟨0, 5⟩, 2⟩ =
      (.ok ⟨⟨0, 5⟩, ⟨5, 2⟩⟩,
       ⟨some ⟨0, 5⟩, some ⟨⟨0, 5⟩, 2⟩, none⟩) ∧
    ECDH.load_private_key ⟨some ⟨0, 5⟩, none, none⟩ ⟨⟨0, 5⟩, 2⟩ =
      (.ok ⟨⟨0, 5⟩, ⟨5, 2⟩⟩,
       ⟨some ⟨0, 5⟩, some ⟨⟨0, 5⟩, 2⟩, none⟩) ∧
    ECDH.load_private_key ⟨some ⟨1, 5⟩, none, none⟩ ⟨⟨0, 5⟩, 2⟩ =
      (.error Err.InvalidCurveError, ⟨some ⟨1, 5⟩, none, none⟩) := by
  refine ⟨?_, ?_, ?_⟩
  · rw [(C5_load_private_key_cases ⟨none, none, none⟩ ⟨⟨0, 5⟩, 2⟩).1 rfl]
    rfl
  · rw [(C5_load_private_key_cases
      ⟨some ⟨0, 5⟩, none, none⟩ ⟨⟨0, 5⟩, 2⟩).2.1 rfl]
    rfl
  · rw [(C5_load_private_key_cases
      ⟨some ⟨1, 5⟩, none, none⟩ ⟨⟨0, 5⟩, 2⟩).2.2 ⟨1, 5⟩ rfl (by decide)]

lemma load_private_key_none (s : ECDH) (k : SigningKey) (h : s.curve = none) :
    s.load_private_key k =
      (.ok k.get_verifying_key,
       { s with curve := some k.curve, private_key := some k }) := by
  simp [ECDH.load_private_key, h]

lemma load_private_key_match (s : ECDH) (k : SigningKey)
    (h : s.curve = some k.curve) :
    s.load_private_key k =
      (.ok k.get_verifying_key, { s with private_key := some k }) := by
  simp [ECDH.load_private_key, h]

lemma load_private_key_mismatch (s : ECDH) (k : SigningKey) (c : Curve)
    (h : s.curve = some c) (hne : c ≠ k.curve) :
    s.load_private_key k = (.error Err.InvalidCurveError, s) := by
  simp [ECDH.load_private_key, h, hne]

lemma load_received_public_key_none (s : ECDH) (v : VerifyingKey)
    (h : s.curve = none) :
    s.load_received_public_key v =
      (.ok (), { s with curve := some v.curve, public_key := some v }) := by
  simp [ECDH.load_received_public_key, h]

lemma load_received_public_key_match (s : ECDH) (v : VerifyingKey)
    (h : s.curve = some v.curve) :
    s.load_received_public_key v =
      (.ok (), { s with public_key := some v }) := by
  simp [ECDH.load_received_public_key, h]

lemma load_received_public_key_mismatch (s : ECDH) (v : VerifyingKey)
    (c : Curve) (h : s.curve = some c) (hne : c ≠ v.curve) :
    s.load_received_public_key v = (.error Err.InvalidCurveError, s) := by
  simp [ECDH.load_received_public_key, h, hne]

lemma consistent_init : ECDH.Consistent ⟨none, none, none⟩ :=
  ⟨fun _ hk => Option.noConfusion hk, fun _ hv => Option.noConfusion hv⟩

lemma consistent_set_curve (s : ECDH) (c : Curve)
    (hpk : s.private_key = none) (hpub : s.public_key = none) :
    ECDH.Consistent (s.set_curve c) := by
  constructor
  · intro k hk
    simp [ECDH.set_curve, hpk] at hk
  · intro v hv
    simp [ECDH.set_curve, hpub] at hv

lemma consistent_load_private_key (s : ECDH) (k : SigningKey)
    (h : ECDH.Consistent s) : ECDH.Consistent (s.load_private_key k).2 := by
  rcases hc : s.curve with _ | c
  · rw [load_private_key_none s k hc]
    refine ⟨fun k2 hk2 => ?_, fun v hv => ?_⟩
    · cases Option.some.inj hk2
      rfl
    · have h2 := h.2 v hv
      rw [hc] at h2
      exact absurd h2 (by simp)
  · by_cases hck : c = k.curve
    · subst hck
      rw [load_private_key_match s k hc]
      refine ⟨fun k2 hk2 => ?_, fun v hv => ?_⟩
      · cases Option.some.inj hk2
        exact hc
      · exact h.2 v hv
    · rw [load_private_key_mismatch s k c hc hck]
      exact h

lemma consistent_load_received_public_key (s : ECDH) (v : VerifyingKey)
    (h : ECDH.Consistent s) :
    ECDH.Consistent (s.load_received_public_key v).2 := by
  rcases hc : s.curve with _ | c
  · rw [load_received_public_key_none s v hc]
    refine ⟨fun k hk => ?_, fun v2 hv2 => ?_⟩
    · have h1 := h.1 k hk
      rw [hc] at h1
      exact absurd h1 (by simp)
    · cases Option.some.inj hv2
      rfl
  · by_cases hcv : c = v.curve
    · subst hcv
      rw [load_received_public_key_match s v hc]
      refine ⟨fun k hk => ?_, fun v2 hv2 => ?_⟩
      · exact h.1 k hk
      · cases Option.some.inj hv2
        exact hc
    · rw [load_received_public_key_mismatch s v c hc hcv]
      exact h

lemma consistent_generate_private_key (s : ECDH) (fresh : Nat)
    (h : ECDH.Consistent s) :
    ECDH.Consistent (s.generate_private_key fresh).2 := by
  unfold ECDH.generate_private_key
  rcases hc : s.curve with _ | c
  · exact h
  · exact consistent_load_private_key s (SigningKey.generate c fresh) h

lemma consistent_load_private_key_bytes (s : ECDH) (d : List Nat)
    (h : ECDH.Consistent s) :
    ECDH.Consistent (s.load_private_key_bytes d).2 := by
  unfold ECDH.load_private_key_bytes
  rcases hc : s.curve with _ | c
  · exact h
  · exact consistent_load_private_key s (SigningKey.from_string d c) h

lemma consistent_load_received_public_key_bytes (s : ECDH) (d : List Nat)
    (h : ECDH.Consistent s) :
    ECDH.Consistent (s.load_received_public_key_bytes d).2 := by
  unfold ECDH.load_received_public_key_bytes
  rcases hc : s.curve with _ | c
  · exact h
  · exact consistent_load_received_public_key s
      ⟨c, ⟨c.order, beValue d % c.order⟩⟩ h

/-- C6 as stated is refuted: the state reached by loading a private key
on one curve and then calling `set_curve` with a different curve is
reachable by public operations, yet its curve slot and its private key's
curve are both set and differ — `set_curve` validates nothing. -/
theorem C6_reachable_consistency_counterexample :
    ECDH.Reachable
      ((ECDH.load_private_key ⟨none, none, none⟩ ⟨⟨0, 5⟩, 1⟩).2.set_curve
        ⟨1, 5⟩) ∧
    ((ECDH.load_private_key ⟨none, none, none⟩ ⟨⟨0, 5⟩, 1⟩).2.set_curve
        ⟨1, 5⟩).curve = some ⟨1, 5⟩ ∧
    ((ECDH.load_private_key ⟨none, none, none⟩ ⟨⟨0, 5⟩, 1⟩).2.set_curve
        ⟨1, 5⟩).private_key = some ⟨⟨0, 5⟩, 1⟩ ∧
    (⟨1, 5⟩ : Curve) ≠ ⟨0, 5⟩ :=
  ⟨ECDH.Reachable.set_curve _ _
      (ECDH.Reachable.load_private_key _ _ ECDH.Reachable.init),
   rfl, rfl, by decide⟩

/-- C6 (amended): in every state reachable by the public operations with
`set_curve` used only while no key is loaded, whenever two or more of
the curve slot, the private key's curve and the public key's curve are
set they are mutually equal; unrestricted `set_curve` can desynchronize
the state, which its docstring leaves as caller responsibility. -/
theorem C6_curve_consistency_amended (s : ECDH) (h : ECDH.ReachableSafe s) :
    (∀ k, s.private_key = some k → s.curve = some k.curve) ∧
    (∀ v, s.public_key = some v → s.curve = some v.curve) ∧
    (∀ k v, s.private_key = some k → s.public_key = some v →
      k.curve = v.curve) := by
  have hc : ECDH.Consistent s := by
    induction h with
    | init => exact consistent_init
    | set_curve s c hpk hpub hr ih => exact consistent_set_curve s c hpk hpub
    | generate_private_key s f hr ih =>
        exact consistent_generate_private_key s f ih
    | load_private_key s k hr ih => exact consistent_load_private_key s k ih
    | load_private_key_bytes s d hr ih =>
        exact consistent_load_private_key_bytes s d ih
    | load_private_key_decoded s k hr ih =>
        exact consistent_load_private_key s k ih
    | get_public_key s hr ih =>
        rw [get_public_key_snd s]
        exact ih
    | load_received_public_key s v hr ih =>
        exact consistent_load_received_public_key s v ih
    | load_received_public_key_bytes s d hr ih =>
        exact consistent_load_received_public_key_bytes s d ih
    | load_received_public_key_decoded s v hr ih =>
        exact consistent_load_received_public_key s v ih
    | generate_sharedsecret s hr ih =>
        rw [generate_sharedsecret_snd s]
        exact ih
    | generate_sharedsecret_bytes s hr ih =>
        rw [generate_sharedsecret_bytes_snd s]
        exact ih
  refine ⟨hc.1, hc.2, fun k v hk hv => ?_⟩
  have h1 := hc.1 k hk
  have h2 := hc.2 v hv
  rw [h1] at h2
  exact Option.some.inj h2

/-- Witness for the amended C6 at a concrete reachable state: after
loading a private key into a fresh coordinator, the curve slot equals
the key's curve. -/
theorem C6_curve_consistency_amended_witness :
    (ECDH.load_private_key ⟨none, none, none⟩ ⟨⟨0, 5⟩, 2⟩).2.curve =
      some (⟨0, 5⟩ : Curve) := by
  have h := C6_curve_consistency_amended
    (ECDH.load_private_key ⟨none, none, none⟩ ⟨⟨0, 5⟩, 2⟩).2
    (ECDH.ReachableSafe.load_private_key _ _ ECDH.ReachableSafe.init)
  exact h.1 ⟨⟨0, 5⟩, 2⟩ rfl

lemma smul_arith (n g a b : Nat) :
    (g * b % n) * a % n = (g * a % n) * b % n := by
  rw [Nat.mod_mul_mod, Nat.mod_mul_mod, Nat.mul_right_comm]

lemma gss_full_state (c : Curve) (k : SigningKey) (v : VerifyingKey)
    (hkc : k.curve = c) (hvc : v.curve = c) :
    (ECDH.generate_sharedsecret ⟨some c, some k, some v⟩).1 =
      if (v.point.smul k.secret_multiplier).isInfinity then
        .error Err.InvalidSharedSecretError
      else .ok (v.point.smul k.secret_multiplier).x := by
  unfold ECDH.generate_sharedsecret ECDH.get_shared_secret
  dsimp only
  simp only [Option.isNone_some, Bool.false_eq_true, if_false,
    Option.map_some']
  rw [if_neg (not_not_intro ⟨by rw [hkc], by rw [hvc]⟩)]
  split <;> rfl

/-- C7: ECDH symmetry — for any curve and scalars `a`, `b` whose cross
products avoid the point at infinity, the coordinator holding private
scalar `a` against the public key derived from `b` computes the same
shared-secret integer as the coordinator holding `b` against the public
key derived from `a`. -/
theorem C7_symmetry (c : Curve) (a b : Nat)
    (h1 : ((SigningKey.mk c b).get_verifying_key.point.smul a).isInfinity
      = false)
    (h2 : ((SigningKey.mk c a).get_verifying_key.point.smul b).isInfinity
      = false) :
    ∃ x,
      (ECDH.generate_sharedsecret
        ⟨some c, some ⟨c, a⟩,
         some (SigningKey.mk c b).get_verifying_key⟩).1 = .ok x ∧
      (ECDH.generate_sharedsecret
        ⟨some c, some ⟨c, b⟩,
         some (SigningKey.mk c a).get_verifying_key⟩).1 = .ok x := by
  have harith :
      ((SigningKey.mk c a).get_verifying_key.point.smul b).x =
      ((SigningKey.mk c b).get_verifying_key.point.smul a).x := by
    unfold SigningKey.get_verifying_key Curve.generator Point.smul Point.x
    dsimp only
    rw [smul_arith]
  refine ⟨((SigningKey.mk c b).get_verifying_key.point.smul a).x, ?_, ?_⟩
  · rw [gss_full_state c ⟨c, a⟩ (SigningKey.mk c b).get_verifying_key
      rfl rfl]
    simp [h1]
  · rw [gss_full_state c ⟨c, b⟩ (SigningKey.mk c a).get_verifying_key
      rfl rfl]
    simp [h2, harith]

/-- Witness for C7 at a concrete instance: curve of order 5, scalars 2
and 3. -/
theorem C7_symmetry_witness :
    ∃ x,
      (ECDH.generate_sharedsecret
        ⟨some ⟨0, 5⟩, some ⟨⟨0, 5⟩, 2⟩,
         some (SigningKey.mk ⟨0, 5⟩ 3).get_verifying_key⟩).1 = .ok x ∧
      (ECDH.generate_sharedsecret
        ⟨some ⟨0, 5⟩, some ⟨⟨0, 5⟩, 3⟩,
         some (SigningKey.mk ⟨0, 5⟩ 2).get_verifying_key⟩).1 = .ok x :=
  C7_symmetry ⟨0, 5⟩ 2 3 (by decide) (by decide)

/-- C8: key generation requires a curve — `NoCurveError` on an empty
curve slot — and otherwise routes the freshly drawn key through
`load_private_key`, so the stored key's curve equals the coordinator's
curve and the derived public key is returned. -/
theorem C8_generate_private_key (s : ECDH) (fresh : Nat) :
    (s.curve = none →
      s.generate_private_key fresh = (.error Err.NoCurveError, s)) ∧
    (∀ c, s.curve = some c →
      s.generate_private_key fresh = s.load_private_key ⟨c, fresh⟩ ∧
      (s.generate_private_key fresh).2.private_key =
        some (⟨c, fresh⟩ : SigningKey) ∧
      (s.generate_private_key fresh).2.curve = s.curve ∧
      (s.generate_private_key fresh).1 =
        .ok (SigningKey.mk c fresh).get_verifying_key) := by
  constructor
  · intro h
    unfold ECDH.generate_private_key
    rw [h]
  · intro c h
    have hroute : s.generate_private_key fresh = s.load_private_key
        ⟨c, fresh⟩ := by
      unfold ECDH.generate_private_key
      rw [h]
      rfl
    have hmatch : s.curve = some (SigningKey.mk c fresh).curve := h
    refine ⟨hroute, ?_, ?_, ?_⟩
    · rw [hroute, load_private_key_match s ⟨c, fresh⟩ hmatch]
    · rw [hroute, load_private_key_match s ⟨c, fresh⟩ hmatch]
    · rw [hroute, load_private_key_match s ⟨c, fresh⟩ hmatch]

/-- Witness for C8 at concrete states: empty curve slot and curve of
order 5 with fresh scalar 2. -/
theorem C8_generate_private_key_witness :
    ECDH.generate_private_key ⟨none, none, none⟩ 2 =
      (.error Err.NoCurveError, ⟨none, none, none⟩) ∧
    ECDH.generate_private_key ⟨some ⟨0, 5⟩, none, none⟩ 2 =
      (.ok ⟨⟨0, 5⟩, ⟨5, 2⟩⟩,
       ⟨some ⟨0, 5⟩, some ⟨⟨0, 5⟩, 2⟩, none⟩) := by
  constructor
  · exact (C8_generate_private_key ⟨none, none, none⟩ 2).1 rfl
  · have h := ((C8_generate_private_key
      ⟨some ⟨0, 5⟩, none, none⟩ 2).2 ⟨0, 5⟩ rfl).1
    rw [h]
    rfl

/-- C9: the shared-secret computations and public-key derivation never
mutate the coordinator — the state after each call (success or failure)
is the state before it — and with a private key set, `get_public_key`
returns exactly the key derived from the stored private key. -/
theorem C9_no_state_mutation (s : ECDH) :
    s.generate_sharedsecret.2 = s ∧
    s.generate_sharedsecret_bytes.2 = s ∧
    s.get_public_key.2 = s ∧
    (∀ k, s.private_key = some k →
      s.get_public_key.1 = .ok k.get_verifying_key) := by
  refine ⟨generate_sharedsecret_snd s, generate_sharedsecret_bytes_snd s,
    get_public_key_snd s, fun k hk => ?_⟩
  unfold ECDH.get_public_key
  rw [hk]

/-- Witness for C9 at a concrete fully loaded state. -/
theorem C9_no_state_mutation_witness :
    (ECDH.generate_sharedsecret
      ⟨some ⟨0, 5⟩, some ⟨⟨0, 5⟩, 2⟩, some ⟨⟨0, 5⟩, ⟨5, 3⟩⟩⟩).2 =
      ⟨some ⟨0, 5⟩, some ⟨⟨0, 5⟩, 2⟩, some ⟨⟨0, 5⟩, ⟨5, 3⟩⟩⟩ ∧
    (ECDH.generate_sharedsecret_bytes
      ⟨some ⟨0, 5⟩, some ⟨⟨0, 5⟩, 2⟩, some ⟨⟨0, 5⟩, ⟨5, 3⟩⟩⟩).2 =
      ⟨some ⟨0, 5⟩, some ⟨⟨0, 5⟩, 2⟩, some ⟨⟨0, 5⟩, ⟨5, 3⟩⟩⟩ ∧
    (ECDH.get_public_key
      ⟨some ⟨0, 5⟩, some ⟨⟨0, 5⟩, 2⟩, some ⟨⟨0, 5⟩, ⟨5, 3⟩⟩⟩).2 =
      ⟨some ⟨0, 5⟩, some ⟨⟨0, 5⟩, 2⟩, some ⟨⟨0, 5⟩, ⟨5, 3⟩⟩⟩ ∧
    (ECDH.get_public_key
      ⟨some ⟨0, 5⟩, some ⟨⟨0, 5⟩, 2⟩, some ⟨⟨0, 5⟩, ⟨5, 3⟩⟩⟩).1 =
      .ok ⟨⟨0, 5⟩, ⟨5, 2⟩⟩ := by
  have h := C9_no_state_mutation
    ⟨some ⟨0, 5⟩, some ⟨⟨0, 5⟩, 2⟩, some ⟨⟨0, 5⟩, ⟨5, 3⟩⟩⟩
  refine ⟨h.1, h.2.1, h.2.2.1, ?_⟩
  rw [h.2.2.2 ⟨⟨0, 5⟩, 2⟩ rfl]
  rfl

/-- C10: when either loader fails with `InvalidCurveError`, the entire
coordinator state is unchanged — the curve-adoption branch and the
failure branch are mutually exclusive. -/
theorem C10_loader_atomicity (s : ECDH) :
    (∀ k, (s.load_private_key k).1 = .error Err.InvalidCurveError →
      (s.load_private_key k).2 = s) ∧
    (∀ v, (s.load_received_public_key v).1 = .error Err.InvalidCurveError →
      (s.load_received_public_key v).2 = s) := by
  constructor
  · intro k hk
    rcases hc : s.curve with _ | c
    · rw [load_private_key_none s k hc] at hk
      exact Except.noConfusion hk
    · by_cases hck : c = k.curve
      · subst hck
        rw [load_private_key_match s k hc] at hk
        exact Except.noConfusion hk
      · rw [load_private_key_mismatch s k c hc hck]
  · intro v hv
    rcases hc : s.curve with _ | c
    · rw [load_received_public_key_none s v hc] at hv
      exact Except.noConfusion hv
    · by_cases hcv : c = v.curve
      · subst hcv
        rw [load_received_public_key_match s v hc] at hv
        exact Except.noConfusion hv
      · rw [load_received_public_key_mismatch s v c hc hcv]

/-- Witness for C10 at concrete mismatching loads. -/
theorem C10_loader_atomicity_witness :
    (ECDH.load_private_key ⟨some ⟨1, 5⟩, none, none⟩ ⟨⟨0, 5⟩, 2⟩).2 =
      ⟨some ⟨1, 5⟩, none, none⟩ ∧
    (ECDH.load_received_public_key ⟨some ⟨1, 5⟩, none, none⟩
      ⟨⟨0, 5⟩, ⟨5, 3⟩⟩).2 = ⟨some ⟨1, 5⟩, none, none⟩ :=
  ⟨(C10_loader_atomicity ⟨some ⟨1, 5⟩, none, none⟩).1 ⟨⟨0, 5⟩, 2⟩ rfl,
   (C10_loader_atomicity ⟨some ⟨1, 5⟩, none, none⟩).2 ⟨⟨0, 5⟩, ⟨5, 3⟩⟩ rfl⟩

end ECDHSpec
